import Mathlib

/-!
Verification of the smooth color-transition engine of `i2c/pwm.py`
(`sensorReporter`): the pure helpers `scale_color_val` and
`take_radial_step`, the `_SmoothDimmer` engine
(`apply_value_change`, `start_dimming`, `stop_dimming`, `_smooth_dimmer`)
and the command handler `PwmHatColorLED.on_message`.

The embedding is shallow: Python integers become `Int`, the background
thread's loop body becomes an explicit tick function on the pair
(live color, target color), and the passage of real time (sleeps, the
0.2 s join timeout) is abstracted into boolean oracles ("was the thread
finished when joined", "is the cancellation flag observed at tick i").
Hardware writes, state publishes and log lines are collected in an
explicit effect trace.
-/

set_option autoImplicit false

namespace PwmSpec

/-- Python `abs` on integers. -/
def iabs (x : Int) : Int := if x < 0 then -x else x

/-- From `scale_color_val` (pwm.py lines 38-43):
`val = abs(value) / 100; return int(val * 0xffff)`.
Python's true division and `int()` truncation are modelled exactly over ℚ
(`int()` of a non-negative quantity is the floor); on this expression the
rational value coincides with the IEEE-double value at every input the
actuator produces. -/
def scale_color_val (value : Int) : Int :=
  ⌊(iabs value : ℚ) / 100 * 0xffff⌋

/-- The `scale` function exactly as the specification words it:
`round(|percentValue|/100 * maxDuty)` (round to nearest). -/
def scale_color_val_specRound (value : Int) : Int :=
  round ((iabs value : ℚ) / 100 * 0xffff)

/-- From `take_radial_step` (pwm.py lines 45-67), a literal translation:
compute `diff`, snap to the target when within `step` of it (directly or
across the 0/360 seam), otherwise move `step` in the direction of the
shorter arc and re-normalize once. -/
def take_radial_step (current_angle target_angle step : Int) : Int :=
  let diff := target_angle - current_angle
  if iabs diff ≤ step ∨ 360 - iabs diff ≤ step then
    target_angle
  else
    let sign : Int :=
      if iabs diff > 180 then (if diff > 0 then -1 else 1)
      else (if diff > 0 then 1 else -1)
    let new := current_angle + sign * step
    if new < 0 then 360 + new
    else if new ≥ 360 then new - 360
    else new

/-- Circular distance between two angles,
`min(|target-current|, 360-|target-current|)` (the quantity the spec's
radial-step contract is phrased in). -/
def circDist (current target : Int) : Int :=
  min (iabs (target - current)) (360 - iabs (target - current))

/-- Modelled from the spec: `core.utils.ColorHSV` (not under `src/`).
A color is hue/saturation/value plus a flag recording whether a white
channel is configured; `hsv_dict` holds `C_HUE`, `C_SAT` and `C_VAL`.
Components are Python integers, here `Int` (invariants: hue in `[0,360)`,
saturation and value in `[0,100]`). -/
structure ColorHSV where
  hue : Int
  sat : Int
  val : Int
  white_in_use : Bool
deriving DecidableEq, Repr

/-- Modelled from the spec: `ColorHSV` equality (`__eq__` of
`core.utils.ColorHSV`, not under `src/`) is structural on all HSV fields;
the white-channel flag is fixed at construction and not compared. -/
def hsvEq (a b : ColorHSV) : Bool :=
  a.hue == b.hue && a.sat == b.sat && a.val == b.val

/-- The spec's invariant on a color value: hue normalized into `[0,360)`,
saturation and value in `[0,100]`. -/
def InRange (c : ColorHSV) : Prop :=
  0 ≤ c.hue ∧ c.hue < 360 ∧ 0 ≤ c.sat ∧ c.sat ≤ 100 ∧ 0 ≤ c.val ∧ c.val ≤ 100

instance (c : ColorHSV) : Decidable (InRange c) := by
  unfold InRange; infer_instance

/-- One pass of the component loop in `_SmoothDimmer._smooth_dimmer`
(pwm.py lines 217-239) followed by the bidirectional-dim retarget check:
hue advances by `take_radial_step` with per-tick maximum 5, saturation and
value snap when the remaining distance is under 5 and otherwise move by 5
toward the target; afterwards (code lines 235-239) when the start delay
was non-zero and both the updated live value's brightness and the target's
brightness are 0, the target brightness is set to 100.
`sdp` (start-delay-positive) is the truthiness of `start_delay`.
Returns (updated live color, possibly retargeted target). -/
def dimmerTick (sdp : Bool) (cur tgt : ColorHSV) : ColorHSV × ColorHSV :=
  let c1 := { cur with hue := take_radial_step cur.hue tgt.hue 5 }
  let c2 :=
    if iabs (c1.sat - tgt.sat) < 5 then { c1 with sat := tgt.sat }
    else if c1.sat < tgt.sat then { c1 with sat := c1.sat + 5 }
    else { c1 with sat := c1.sat - 5 }
  let c3 :=
    if iabs (c2.val - tgt.val) < 5 then { c2 with val := tgt.val }
    else if c2.val < tgt.val then { c2 with val := c2.val + 5 }
    else { c2 with val := c2.val - 5 }
  let tgt' :=
    if sdp ∧ c3.val = 0 ∧ tgt.val = 0 then { tgt with val := 100 } else tgt
  (c3, tgt')

/-- The `while current_value != target_value and not self._stop_thread`
loop of `_SmoothDimmer._smooth_dimmer` (pwm.py lines 217-239), fuel-indexed.
`cancel i` is the value of `self._stop_thread` observed at the i-th check,
`sdp` the truthiness of `start_delay`. Returns `none` when the fuel is
exhausted before the loop exits, otherwise the final live color together
with the trace of colors passed to the `set_pwm` hardware-apply callback,
one per tick (code line 233, called with the updated live value before the
retarget check). -/
def smoothDimmerLoop (cancel : Nat → Bool) (sdp : Bool) :
    Nat → Nat → ColorHSV → ColorHSV → Option (ColorHSV × List ColorHSV)
  | 0, i, cur, tgt =>
    if hsvEq cur tgt || cancel i then some (cur, []) else none
  | fuel + 1, i, cur, tgt =>
    if hsvEq cur tgt || cancel i then some (cur, [])
    else
      let p := dimmerTick sdp cur tgt
      (smoothDimmerLoop cancel sdp fuel (i + 1) p.1 p.2).map
        (fun r => (r.1, p.1 :: r.2))

/-- A background activity as handed to `_SmoothDimmer._start_thread`
(pwm.py lines 168-186): start delay, step interval (both seconds, exact
rationals here) and the target color. -/
structure Activity where
  start_delay : ℚ
  interval : ℚ
  target : ColorHSV
deriving DecidableEq

/-- Run an activity's `_smooth_dimmer` body from live color `cur`.
The interruptible start-delay wait (pwm.py lines 206-210) only matters
under cancellation during the delay, in which case the while loop exits at
its first check; this is subsumed by `cancel 0`. The loop's flip
special-case is enabled exactly when `start_delay` is truthy (non-zero). -/
def runActivity (a : Activity) (cancel : Nat → Bool) (fuel : Nat)
    (cur : ColorHSV) : Option (ColorHSV × List ColorHSV) :=
  smoothDimmerLoop cancel (decide (a.start_delay ≠ 0)) fuel 0 cur a.target

/-- Observable side effects of the engine and the command handler:
hardware-apply calls (`set_pwm`), state publishes
(`publish_actuator_state`), the "thread still active, value not published"
debug line of `stop_dimming`, and the "ignoring command" info/warning
lines of `on_message`. -/
inductive Effect where
  | setPwm (value : ColorHSV)
  | publish (state : ColorHSV)
  | logBusy
  | logIgnored
deriving DecidableEq, Repr

/-- The mutable state of one `_SmoothDimmer` together with the live
`caller.state.current` it aliases: the configured `DimInterval`,
`DimDelay` and `SmoothChangeInterval` (floats in the source, exact
rationals here), `dimming.state_before`, `smooth_change.in_progress`,
`_stop_thread`, and the currently stored background activity
(`self._thread`, `none` when no thread was ever created). -/
structure EngineState where
  current : ColorHSV
  state_before : ColorHSV
  dim_interval : ℚ
  dim_delay : ℚ
  smooth_interval : ℚ
  smooth_in_progress : Bool
  stop_thread : Bool
  thread : Option Activity
deriving DecidableEq

/-- From `_SmoothDimmer._start_thread` (pwm.py lines 168-186): join any
existing thread (unbounded; time is not modelled — the prior activity's
effects are accounted to that activity's own run), clear `_stop_thread`
and record the new activity. -/
def start_thread (st : EngineState) (start_delay interval : ℚ)
    (value : ColorHSV) : EngineState :=
  { st with stop_thread := false,
            thread := some ⟨start_delay, interval, value⟩ }

/-- From `_SmoothDimmer.apply_value_change` (pwm.py lines 109-120):
when `smooth_change.interval` is truthy (non-zero), raise `_stop_thread`,
mark `smooth_change.in_progress` and start a zero-delay activity toward
`value`; otherwise call `set_pwm(value)` directly. Returns the new state
and the synchronous effect trace. -/
def apply_value_change (st : EngineState) (value : ColorHSV) :
    EngineState × List Effect :=
  if st.smooth_interval ≠ 0 then
    let st1 := { st with stop_thread := true, smooth_in_progress := true }
    (start_thread st1 0 st.smooth_interval value, [])
  else
    (st, [Effect.setPwm value])

/-- From `_SmoothDimmer.start_dimming` (pwm.py lines 122-139): the target
color is a copy of the live current color whose brightness is set to 0
when truthy (non-zero) and to 100 otherwise. -/
def dim_target (c : ColorHSV) : ColorHSV :=
  if c.val ≠ 0 then { c with val := 0 } else { c with val := 100 }

/-- From `_SmoothDimmer.start_dimming` (pwm.py lines 122-139): ignore the
DIM command while `smooth_change.in_progress`; otherwise snapshot the live
current color into `dimming.state_before` and start an activity with the
configured `DimDelay` and `DimInterval` toward `dim_target`. -/
def start_dimming (st : EngineState) : EngineState :=
  if st.smooth_in_progress then st
  else
    start_thread { st with state_before := st.current }
      st.dim_delay st.dim_interval (dim_target st.current)

/-- From `_SmoothDimmer.stop_dimming` (pwm.py lines 141-166): returns
`false` while `smooth_change.in_progress`, untouched state. Otherwise
raises `_stop_thread` and, when a thread object exists, joins it with a
0.2 s timeout; `thread_finished` is the oracle for "the thread was no
longer alive after that join". When finished, the result is whether
`dimming.state_before` differs from the live current color; when still
alive, a debug line is logged and the result is `false`. -/
def stop_dimming (st : EngineState) (thread_finished : Bool) :
    Bool × EngineState × List Effect :=
  if st.smooth_in_progress then (false, st, [])
  else
    let st1 := { st with stop_thread := true }
    match st1.thread with
    | none => (false, st1, [])
    | some _ =>
      if thread_finished then
        if !hsvEq st1.state_before st1.current then (true, st1, [])
        else (false, st1, [])
      else (false, st1, [Effect.logBusy])

/-- Python's `needle in hay` substring test on strings. -/
def strContainsSub (hay needle : List Char) : Bool :=
  match hay with
  | [] => needle.isEmpty
  | _ :: t => needle.isPrefixOf hay || strContainsSub t needle

/-- Python's `str.isdigit`: non-empty and every character a digit. -/
def pyIsDigit (s : String) : Bool :=
  !s.data.isEmpty && s.data.all Char.isDigit

/-- Split a character list at every occurrence of `sep` (the semantics of
Python's `str.split(sep)` for a single-character separator). -/
def splitOnChar (sep : Char) : List Char → List (List Char)
  | [] => [[]]
  | c :: rest =>
    if c = sep then [] :: splitOnChar sep rest
    else
      match splitOnChar sep rest with
      | [] => [[c]]
      | h :: t => (c :: h) :: t

/-- Parse a non-empty all-digit character list as a natural number
(Python's `int` on the strings accepted by the handler). -/
def digitsToNat : List Char → Option Nat
  | [] => none
  | l =>
    if l.all Char.isDigit then
      some (l.foldl (fun n c => n * 10 + (c.toNat - 48)) 0)
    else none

/-- Modelled from the spec: the `color_hsv_str` setter of
`core.utils.ColorHSV` (not under `src/`) parses a `"h,s,v"` string into
the three HSV fields of a fresh copy and fails (`FormatError`) when fewer
than 3 numeric fields are present or any field is non-numeric. -/
def parse_hsv (c : ColorHSV) (msg : String) : Option ColorHSV :=
  match (splitOnChar ',' msg.data).map digitsToNat with
  | some h :: some s :: some v :: _ =>
    some { c with hue := (h : Int), sat := (s : Int), val := (v : Int) }
  | _ => none

/-- The state `PwmHatColorLED.on_message` operates on: the dimmer/engine
state (which aliases `self.state.current`) and `self.state.last`, the
color remembered for the toggle command. -/
structure ActuatorState where
  engine : EngineState
  last : ColorHSV
deriving DecidableEq

/-- The tail of `PwmHatColorLED.on_message` (pwm.py lines 426-439) for the
branches that computed a candidate `new_color`: drop the command (info
log only) when the candidate equals the live current color, otherwise
apply the change through the dimmer, store the candidate as the new
current color and publish it. -/
def handle_new_color (st : ActuatorState) (new_color : ColorHSV) :
    ActuatorState × List Effect :=
  if hsvEq st.engine.current new_color then (st, [Effect.logIgnored])
  else
    let p := apply_value_change st.engine new_color
    ({ st with engine := { p.1 with current := new_color } },
      p.2 ++ [Effect.publish new_color])

/-- From `PwmHatColorLED.on_message` (pwm.py lines 369-439), a literal
translation of the branch cascade. `is_toggle` stands for
`utils.is_toggle_cmd` and `within_debounce` for
`self.debounce.is_within_debounce_time()` (both live in `core`, outside
`src/`); `thread_finished` is `stop_dimming`'s join oracle. `none` models
the `FormatError` a malformed `"h,s,v"` string raises out of the handler.
-/
def on_message (is_toggle : String → Bool) (within_debounce : Bool)
    (thread_finished : Bool) (st : ActuatorState) (msg : String) :
    Option (ActuatorState × List Effect) :=
  let new_color := st.engine.current
  if msg.data.contains ',' && !strContainsSub msg.data "NaN".data then
    match parse_hsv new_color msg with
    | none => none
    | some c => some (handle_new_color st c)
  else if pyIsDigit msg then
    some (handle_new_color st
      { new_color with val := (((digitsToNat msg.data).getD 0 : Nat) : Int) })
  else if msg = "ON" then
    some (handle_new_color st { new_color with val := 100 })
  else if msg = "OFF" then
    some (handle_new_color st { new_color with val := 0 })
  else if msg = "DIM" then
    some ({ st with engine := start_dimming st.engine }, [])
  else if msg = "STOP" then
    let r := stop_dimming st.engine thread_finished
    if r.1 then
      some ({ st with engine := r.2.1 },
        r.2.2 ++ [Effect.publish r.2.1.current])
    else some ({ st with engine := r.2.1 }, r.2.2)
  else if is_toggle msg then
    if within_debounce then some (st, [Effect.logIgnored])
    else if st.engine.current.val > 0 then
      handle_new_color { st with last := st.engine.current }
        { new_color with val := 0 } |> some
    else
      some (handle_new_color st st.last)
  else
    some (st, [Effect.logIgnored])

/-- The candidate `new_color` that `on_message` carries to the equality
guard at pwm.py line 427, when the branch taken reaches it: `none` for
DIM, STOP, debounced toggles, unrecognized commands and parse failures. -/
def on_message_candidate (is_toggle : String → Bool)
    (within_debounce : Bool) (st : ActuatorState) (msg : String) :
    Option ColorHSV :=
  let new_color := st.engine.current
  if msg.data.contains ',' && !strContainsSub msg.data "NaN".data then
    parse_hsv new_color msg
  else if pyIsDigit msg then
    some { new_color with val := (((digitsToNat msg.data).getD 0 : Nat) : Int) }
  else if msg = "ON" then some { new_color with val := 100 }
  else if msg = "OFF" then some { new_color with val := 0 }
  else if msg = "DIM" then none
  else if msg = "STOP" then none
  else if is_toggle msg then
    if within_debounce then none
    else if st.engine.current.val > 0 then some { new_color with val := 0 }
    else some st.last
  else none

/-! ## Lemmas about the radial step -/

/-- Snap: within one step of the target (circularly), the step returns the
target exactly. No range assumptions are needed. -/
lemma take_radial_step_snap {c t s : Int} (h : circDist c t ≤ s) :
    take_radial_step c t s = t := by
  simp only [take_radial_step, circDist, iabs] at h ⊢
  split_ifs at h ⊢ <;> omega

/-- Fixed point: stepping from the target stays at the target. -/
lemma take_radial_step_fixed (t s : Int) (hs : 0 ≤ s) :
    take_radial_step t t s = t := by
  apply take_radial_step_snap
  unfold circDist iabs
  split_ifs <;> omega

set_option maxHeartbeats 1000000 in
/-- Progress: when the circular distance exceeds the step, one radial step
lands back in `[0,360)` and decreases the circular distance by exactly
`s`. -/
lemma take_radial_step_progress {c t s : Int}
    (hc0 : 0 ≤ c) (hc1 : c < 360) (ht0 : 0 ≤ t) (ht1 : t < 360)
    (hs : 1 ≤ s) (h : s < circDist c t) :
    0 ≤ take_radial_step c t s ∧ take_radial_step c t s < 360 ∧
      circDist (take_radial_step c t s) t = circDist c t - s := by
  simp only [take_radial_step, circDist, iabs] at h ⊢
  split_ifs at h ⊢ <;> omega

/-- Range: the result of a radial step from in-range angles is always in
`[0,360)`. -/
lemma take_radial_step_mem {c t s : Int}
    (hc0 : 0 ≤ c) (hc1 : c < 360) (ht0 : 0 ≤ t) (ht1 : t < 360)
    (hs : 1 ≤ s) :
    0 ≤ take_radial_step c t s ∧ take_radial_step c t s < 360 := by
  by_cases h : circDist c t ≤ s
  · rw [take_radial_step_snap h]; exact ⟨ht0, ht1⟩
  · have := take_radial_step_progress hc0 hc1 ht0 ht1 hs (by omega)
    exact ⟨this.1, this.2.1⟩

/-- In-range angles at circular distance 0 are equal. -/
lemma circDist_eq_zero {c t : Int}
    (hc0 : 0 ≤ c) (hc1 : c < 360) (ht0 : 0 ≤ t) (ht1 : t < 360)
    (h : circDist c t = 0) : c = t := by
  unfold circDist iabs at h
  split_ifs at h <;> omega

/-- The circular distance of in-range angles is non-negative. -/
lemma circDist_nonneg {c t : Int}
    (hc0 : 0 ≤ c) (hc1 : c < 360) (ht0 : 0 ≤ t) (ht1 : t < 360) :
    0 ≤ circDist c t := by
  unfold circDist iabs
  split_ifs <;> omega

/-- Iterating the radial step from any in-range angle reaches the target
in exactly `⌈circDist/step⌉` applications (stated with the fuel bound `k`
to drive the induction). -/
lemma take_radial_step_reach (t s : Int) (ht0 : 0 ≤ t) (ht1 : t < 360)
    (hs : 1 ≤ s) :
    ∀ (k : Nat) (c : Int), 0 ≤ c → c < 360 → (circDist c t).toNat ≤ k →
      (fun x => take_radial_step x t s)^[((circDist c t).toNat + s.toNat - 1) / s.toNat] c = t := by
  intro k
  induction k with
  | zero =>
    intro c hc0 hc1 hk
    have hnn := circDist_nonneg hc0 hc1 ht0 ht1
    have hcd : circDist c t = 0 := by omega
    have hct : c = t := circDist_eq_zero hc0 hc1 ht0 ht1 hcd
    have hn : ((circDist c t).toNat + s.toNat - 1) / s.toNat = 0 := by
      rw [hcd]
      exact Nat.div_eq_of_lt (by omega)
    rw [hn, Function.iterate_zero_apply]
    exact hct
  | succ k ih =>
    intro c hc0 hc1 hk
    have hnn := circDist_nonneg hc0 hc1 ht0 ht1
    by_cases h0 : circDist c t = 0
    · have hct : c = t := circDist_eq_zero hc0 hc1 ht0 ht1 h0
      have hn : ((circDist c t).toNat + s.toNat - 1) / s.toNat = 0 := by
        rw [h0]
        exact Nat.div_eq_of_lt (by omega)
      rw [hn, Function.iterate_zero_apply]
      exact hct
    by_cases h1 : circDist c t ≤ s
    · have hn : ((circDist c t).toNat + s.toNat - 1) / s.toNat = 1 := by
        apply Nat.div_eq_of_lt_le <;> omega
      rw [hn]
      exact take_radial_step_snap h1
    · have hp := take_radial_step_progress hc0 hc1 ht0 ht1 hs (by omega)
      have hstep : ((circDist c t).toNat + s.toNat - 1) / s.toNat
          = (((circDist (take_radial_step c t s) t).toNat + s.toNat - 1) / s.toNat) + 1 := by
        have h3 : (circDist c t).toNat + s.toNat - 1
            = ((circDist (take_radial_step c t s) t).toNat + s.toNat - 1) + s.toNat := by
          omega
        rw [h3, Nat.add_div_right _ (by omega : 0 < s.toNat)]
      rw [hstep, Function.iterate_succ_apply]
      exact ih (take_radial_step c t s) hp.1 hp.2.1 (by omega)

/-! ## C5 -/

/-- C5: for all current and target angles in `[0,360)` and `step ≥ 1`,
feeding each `take_radial_step` result back as the new current angle
reaches the target after `⌈circDist(current,target)/step⌉` calls, and once
the current angle equals the target every further call returns the target
(idempotence at the fixed point). -/
theorem take_radial_step_converges (c t s : Int)
    (hc0 : 0 ≤ c) (hc1 : c < 360) (ht0 : 0 ≤ t) (ht1 : t < 360)
    (hs : 1 ≤ s) :
    (fun x => take_radial_step x t s)^[((circDist c t).toNat + s.toNat - 1) / s.toNat] c = t ∧
    ∀ m : Nat, (fun x => take_radial_step x t s)^[m] t = t := by
  constructor
  · exact take_radial_step_reach t s ht0 ht1 hs (circDist c t).toNat c hc0 hc1 le_rfl
  · intro m
    induction m with
    | zero => rfl
    | succ n ihm =>
      rw [Function.iterate_succ_apply', ihm]
      exact take_radial_step_fixed t s (by omega)

/-- Witness for C5 at `current = 350`, `target = 10`, `step = 5`:
`circDist = 20`, `⌈20/5⌉ = 4`, and indeed four steps
(355, 0, 5, 10) land exactly on the target. -/
theorem take_radial_step_converges_witness :
    (fun x => take_radial_step x 10 5)^[4] 350 = 10 :=
  (take_radial_step_converges 350 10 5 (by decide) (by decide) (by decide)
    (by decide) (by decide)).1

/-! ## C4 -/

set_option maxHeartbeats 1000000 in
/-- C4: for current and target in `[0,360)` and `maxStep ≥ 1`,
`take_radial_step` returns the target exactly when the circular distance
`min(|target-current|, 360-|target-current|)` is at most `maxStep`;
otherwise it returns the current angle moved by exactly `maxStep` along
the shorter circular arc — direction opposite the sign of the naive
difference when `|target-current|` exceeds 180 — normalized modulo 360;
and the returned angle is always in `[0,360)`. -/
theorem take_radial_step_correct (c t s : Int)
    (hc0 : 0 ≤ c) (hc1 : c < 360) (ht0 : 0 ≤ t) (ht1 : t < 360)
    (hs : 1 ≤ s) :
    (circDist c t ≤ s → take_radial_step c t s = t) ∧
    (s < circDist c t →
      take_radial_step c t s =
        (c + (if 180 < iabs (t - c) then -(if 0 < t - c then (1 : Int) else -1)
              else (if 0 < t - c then 1 else -1)) * s) % 360) ∧
    0 ≤ take_radial_step c t s ∧ take_radial_step c t s < 360 := by
  refine ⟨fun h => take_radial_step_snap h, fun h => ?_,
    take_radial_step_mem hc0 hc1 ht0 ht1 hs⟩
  simp only [take_radial_step, circDist, iabs] at h ⊢
  split_ifs at h ⊢ <;> omega

/-- Witness for C4 at `current = 350`, `target = 20`, `maxStep = 5`:
the circular distance is 30, so the step moves forward across the seam to
`(350 + 5) % 360 = 355`. -/
theorem take_radial_step_correct_witness :
    take_radial_step 350 20 5 = (350 + 1 * 5) % 360 :=
  (take_radial_step_correct 350 20 5 (by decide) (by decide) (by decide)
    (by decide) (by decide)).2.1 (by decide)

/-! ## C6 -/

/-- C6 counterexample: at input 50 the code truncates
`0.5 * 65535 = 32767.5` to `32767`, while the claim's
`round(|50|/100 * maxDuty)` is `32768`, so the claimed equation fails. -/
theorem scale_color_val_round_counterexample :
    scale_color_val 50 = 32767 ∧ scale_color_val_specRound 50 = 32768 ∧
      scale_color_val 50 ≠ scale_color_val_specRound 50 := by
  have h : ((iabs 50 : Int) : ℚ) / 100 * 0xffff = ((65535 : Int) : ℚ) / ((2 : ℕ) : ℚ) := by
    norm_num [iabs]
  constructor
  · rw [scale_color_val, h, Rat.floor_intCast_div_natCast]; decide
  constructor
  · rw [scale_color_val_specRound, h, round_eq]
    norm_num
  · rw [scale_color_val, scale_color_val_specRound, h, round_eq,
      Rat.floor_intCast_div_natCast]
    norm_num

/-- C6 amended: `scale_color_val` is total and takes the magnitude of
negative inputs, but truncates rather than rounds:
`scale_color_val v = ⌊|v| * 65535 / 100⌋` (here written with integer
division); it still reaches 0 at input 0 and `maxDuty = 65535` at input
magnitude 100. -/
theorem scale_color_val_truncates :
    (∀ v : Int, scale_color_val v = (v.natAbs : Int) * 65535 / 100) ∧
    scale_color_val 0 = 0 ∧ scale_color_val 100 = 65535 ∧
      scale_color_val (-100) = 65535 := by
  have main : ∀ v : Int, scale_color_val v = (v.natAbs : Int) * 65535 / 100 := by
    intro v
    have h0 : (iabs v : ℚ) = ((v.natAbs : Int) : ℚ) := by
      have : iabs v = (v.natAbs : Int) := by unfold iabs; split_ifs <;> omega
      rw [this]
    have h1 : ((v.natAbs : Int) : ℚ) / 100 * 0xffff =
        (((v.natAbs : Int) * 65535 : Int) : ℚ) / ((100 : ℕ) : ℚ) := by
      push_cast; ring
    rw [scale_color_val, h0, h1, Rat.floor_intCast_div_natCast]
    norm_num
  refine ⟨main, ?_, ?_, ?_⟩ <;> rw [main] <;> decide

/-! ## Sample values used by the witnesses -/

/-- A sample in-range color (hue 120, saturation 50, brightness 60). -/
def sampleOn : ColorHSV := ⟨120, 50, 60, false⟩

/-- The same color dimmed to brightness 0. -/
def sampleOff : ColorHSV := ⟨120, 50, 0, false⟩

/-- A sample engine state: live color `sampleOff`, pre-dim snapshot
`sampleOn`, the default configuration intervals, idle, with a stored
background activity. -/
def sampleEngine : EngineState :=
  { current := sampleOff, state_before := sampleOn,
    dim_interval := 1/5, dim_delay := 1/2, smooth_interval := 1/20,
    smooth_in_progress := false, stop_thread := true,
    thread := some ⟨1/2, 1/5, sampleOff⟩ }

/-! ## C1 -/

/-- C1: `stop_dimming` returns `false` and leaves the state (hence the
background activity) untouched whenever a smooth transition is in
progress. Otherwise it sets the cancellation flag and joins the stored
thread with the 0.2 s timeout: if the thread finished within the timeout
the result is `true` iff the live current color differs from the pre-dim
snapshot (no log emitted); if the thread is still alive it logs that the
engine is busy and returns `false`. -/
theorem stop_dimming_correct (st : EngineState) (fin : Bool) :
    (st.smooth_in_progress = true → stop_dimming st fin = (false, st, [])) ∧
    (st.smooth_in_progress = false → ∀ a, st.thread = some a →
      (stop_dimming st fin).2.1 = { st with stop_thread := true } ∧
      (fin = true →
        (stop_dimming st fin).1 = !hsvEq st.state_before st.current ∧
        (stop_dimming st fin).2.2 = []) ∧
      (fin = false →
        (stop_dimming st fin).1 = false ∧
        (stop_dimming st fin).2.2 = [Effect.logBusy])) := by
  constructor
  · intro h
    simp [stop_dimming, h]
  · intro h a ha
    cases fin
    · simp [stop_dimming, h, ha]
    · simp [stop_dimming, h, ha]
      cases hb : hsvEq st.state_before st.current <;> simp [hb]

/-- Witness for C1: on `sampleEngine` (idle, stored activity, snapshot
differs from the live color) a finished join reports the state change. -/
theorem stop_dimming_correct_witness :
    (stop_dimming sampleEngine true).2.1
        = { sampleEngine with stop_thread := true } ∧
      (stop_dimming sampleEngine true).1
        = !hsvEq sampleEngine.state_before sampleEngine.current := by
  have h := (stop_dimming_correct sampleEngine true).2 rfl
    ⟨1/2, 1/5, sampleOff⟩ rfl
  exact ⟨h.1, (h.2.1 rfl).1⟩

/-! ## C3 -/

/-- C3: `start_dimming` is a no-op while a smooth transition is in
progress; otherwise it snapshots the current color as the "state before"
reference and starts an activity with the configured dim delay and dim
interval whose target equals the current color except that the brightness
component is set to the opposite extreme (0 if the current brightness is
greater than 0, else 100). -/
theorem start_dimming_correct (st : EngineState)
    (hval : 0 ≤ st.current.val) :
    (st.smooth_in_progress = true → start_dimming st = st) ∧
    (st.smooth_in_progress = false →
      (start_dimming st).state_before = st.current ∧
      (start_dimming st).thread =
        some ⟨st.dim_delay, st.dim_interval,
          { st.current with
              val := if 0 < st.current.val then 0 else 100 }⟩) := by
  constructor
  · intro h
    simp [start_dimming, h]
  · intro h
    refine ⟨by simp [start_dimming, start_thread, h], ?_⟩
    simp only [start_dimming, start_thread, h, dim_target, if_neg,
      Bool.false_eq_true, if_false]
    congr 2
    split_ifs <;> first | rfl | omega

/-- Witness for C3: starting to dim from `sampleEngine` (idle, live
brightness 0) snapshots the live color and targets brightness 100. -/
theorem start_dimming_correct_witness :
    (start_dimming sampleEngine).state_before = sampleEngine.current ∧
      (start_dimming sampleEngine).thread =
        some ⟨sampleEngine.dim_delay, sampleEngine.dim_interval,
          { sampleEngine.current with
              val := if 0 < sampleEngine.current.val then 0 else 100 }⟩ :=
  (start_dimming_correct sampleEngine (by decide)).2 rfl

/-! ## C8 -/

/-- C8: in a tick of a background activity with non-zero start delay
(manual dimming), whenever both the updated live brightness and the
target brightness are 0 the target brightness is flipped to 100; hence a
tick never leaves the state with live and target brightness 0
simultaneously. In an activity with zero start delay the target color is
never modified by a tick. -/
theorem dimmer_flip_correct (cur tgt : ColorHSV) :
    (((dimmerTick true cur tgt).1.val = 0 ∧ tgt.val = 0) →
      (dimmerTick true cur tgt).2.val = 100) ∧
    ¬((dimmerTick true cur tgt).1.val = 0 ∧
      (dimmerTick true cur tgt).2.val = 0) ∧
    (dimmerTick false cur tgt).2 = tgt := by
  simp only [dimmerTick]
  split_ifs <;> simp_all

/-- Witness for C8: live color at brightness 4 and target brightness 0
snap to 0 within the tick, and the target flips to 100. -/
theorem dimmer_flip_correct_witness :
    (dimmerTick true ⟨120, 50, 4, false⟩ ⟨120, 50, 0, false⟩).2.val = 100 :=
  (dimmer_flip_correct ⟨120, 50, 4, false⟩ ⟨120, 50, 0, false⟩).1
    (by decide)

/-! ## C7 -/

/-- The C7 scenario's starting color `(0, 0, 0)`. -/
def c7start : ColorHSV := ⟨0, 0, 0, false⟩

/-- The C7 scenario's target color `(0, 0, 100)`. -/
def c7target : ColorHSV := ⟨0, 0, 100, false⟩

/-- An idle engine whose live color is `c7start`, with the default
`SmoothChangeInterval` of 0.05 s. -/
def c7engine : EngineState :=
  { current := c7start, state_before := c7start,
    dim_interval := 1/5, dim_delay := 1/2, smooth_interval := 1/20,
    smooth_in_progress := false, stop_thread := false, thread := none }

/-- C7: with the non-zero step interval 0.05 s, `apply_value_change`
toward `(0,0,100)` from `(0,0,0)` makes no synchronous hardware call and
starts the zero-delay activity; that activity, never cancelled, terminates
with the live color equal to the target, invokes the hardware-apply
callback exactly `⌈100/5⌉ = 20` times, once per tick with the brightness
advancing by the fixed step of 5 units, and the brightness values passed
to successive callback invocations are monotonically non-decreasing. -/
theorem smooth_transition_scenario :
    (apply_value_change c7engine c7target).2 = [] ∧
    (apply_value_change c7engine c7target).1.thread
      = some ⟨0, 1/20, c7target⟩ ∧
    runActivity ⟨0, 1/20, c7target⟩ (fun _ => false) 20 c7start ≠ none ∧
    ((runActivity ⟨0, 1/20, c7target⟩ (fun _ => false) 20 c7start).getD
        (c7start, [])).1 = c7target ∧
    (((runActivity ⟨0, 1/20, c7target⟩ (fun _ => false) 20 c7start).getD
        (c7start, [])).2.map ColorHSV.val)
      = [5, 10, 15, 20, 25, 30, 35, 40, 45, 50,
         55, 60, 65, 70, 75, 80, 85, 90, 95, 100] ∧
    List.Chain' (fun a b => a.val ≤ b.val)
      (((runActivity ⟨0, 1/20, c7target⟩ (fun _ => false) 20 c7start).getD
        (c7start, [])).2) := by
  have hiv : ((1 : ℚ)/20) ≠ 0 := by norm_num
  have h1 : apply_value_change c7engine c7target
      = (start_thread
          { c7engine with stop_thread := true, smooth_in_progress := true }
          0 ((1 : ℚ)/20) c7target, []) := by
    simp [apply_value_change, c7engine, hiv]
  have h2 : runActivity ⟨0, 1/20, c7target⟩ (fun _ => false) 20 c7start
      = smoothDimmerLoop (fun _ => false) false 20 0 c7start c7target := by
    simp [runActivity]
  have hmap : ((smoothDimmerLoop (fun _ => false) false 20 0 c7start
        c7target).getD (c7start, [])).2.map ColorHSV.val
      = [5, 10, 15, 20, 25, 30, 35, 40, 45, 50,
         55, 60, 65, 70, 75, 80, 85, 90, 95, 100] := by
    decide
  refine ⟨by rw [h1], by rw [h1]; rfl, by rw [h2]; decide,
    by rw [h2]; decide, by rw [h2]; exact hmap, ?_⟩
  rw [h2]
  exact (List.chain'_map ColorHSV.val).mp
    (by rw [hmap]; norm_num [List.chain'_cons])

/-! ## Termination of the stepping loop -/

/-- The per-tick update of one non-hue component (saturation or value) in
`_smooth_dimmer`: snap when the remaining distance is under 5, else move
by 5 toward the target. -/
def axisStep (c t : Int) : Int :=
  if iabs (c - t) < 5 then t else if c < t then c + 5 else c - 5

/-- The live color after one tick, componentwise: hue via
`take_radial_step` with step 5, saturation and value via `axisStep`; the
white-channel flag is untouched. -/
lemma dimmerTick_fst (sdp : Bool) (cur tgt : ColorHSV) :
    (dimmerTick sdp cur tgt).1 =
      { hue := take_radial_step cur.hue tgt.hue 5,
        sat := axisStep cur.sat tgt.sat,
        val := axisStep cur.val tgt.val,
        white_in_use := cur.white_in_use } := by
  simp only [dimmerTick, axisStep]
  split_ifs <;> rfl

/-- With a zero start delay the tick never modifies the target. -/
lemma dimmerTick_snd_of_not_sdp (cur tgt : ColorHSV) :
    (dimmerTick false cur tgt).2 = tgt := by
  simp [dimmerTick]

/-- Total remaining distance between a live color and the target:
circular for hue, absolute for saturation and value. Strictly decreases
at every tick, which bounds the loop. -/
def colorDist (c t : ColorHSV) : Nat :=
  (circDist c.hue t.hue).toNat + (iabs (c.sat - t.sat)).toNat +
    (iabs (c.val - t.val)).toNat

/-- `hsvEq` decides componentwise equality of the HSV fields. -/
lemma hsvEq_iff (a b : ColorHSV) :
    hsvEq a b = true ↔ a.hue = b.hue ∧ a.sat = b.sat ∧ a.val = b.val := by
  simp [hsvEq, and_assoc]

/-- The circular distance from an angle to itself is 0. -/
lemma circDist_self (t : Int) : circDist t t = 0 := by
  unfold circDist iabs
  split_ifs <;> omega

/-- One `axisStep` stays in `[0,100]`, never increases the distance to
the target, and strictly decreases it when the component differs. -/
lemma axisStep_progress {c t : Int}
    (hc0 : 0 ≤ c) (hc1 : c ≤ 100) (ht0 : 0 ≤ t) (ht1 : t ≤ 100) :
    0 ≤ axisStep c t ∧ axisStep c t ≤ 100 ∧
      (iabs (axisStep c t - t)).toNat ≤ (iabs (c - t)).toNat ∧
      (c ≠ t → (iabs (axisStep c t - t)).toNat < (iabs (c - t)).toNat) := by
  unfold axisStep iabs
  split_ifs <;> omega

/-- One hue step stays in `[0,360)`, never increases the circular
distance to the target, and strictly decreases it when the hue differs. -/
lemma hueStep_progress {c t : Int}
    (hc0 : 0 ≤ c) (hc1 : c < 360) (ht0 : 0 ≤ t) (ht1 : t < 360) :
    0 ≤ take_radial_step c t 5 ∧ take_radial_step c t 5 < 360 ∧
      (circDist (take_radial_step c t 5) t).toNat ≤ (circDist c t).toNat ∧
      (c ≠ t →
        (circDist (take_radial_step c t 5) t).toNat < (circDist c t).toNat) := by
  have hnn := circDist_nonneg hc0 hc1 ht0 ht1
  by_cases h : circDist c t ≤ 5
  · rw [take_radial_step_snap h, circDist_self]
    refine ⟨ht0, ht1, ?_, ?_⟩
    · omega
    · intro hne
      have h0 : circDist c t ≠ 0 :=
        fun h0 => hne (circDist_eq_zero hc0 hc1 ht0 ht1 h0)
      omega
  · obtain ⟨h1, h2, h3⟩ :=
      @take_radial_step_progress c t 5 hc0 hc1 ht0 ht1 (by omega) (by omega)
    exact ⟨h1, h2, by omega, fun _ => by omega⟩

/-- One tick of a zero-start-delay activity keeps the live color in
range, leaves the target alone, and strictly decreases the total distance
when the live color still differs from the target. -/
lemma dimmerTick_progress {cur tgt : ColorHSV}
    (hc : InRange cur) (ht : InRange tgt) (hne : hsvEq cur tgt = false) :
    InRange (dimmerTick false cur tgt).1 ∧
      (dimmerTick false cur tgt).2 = tgt ∧
      colorDist (dimmerTick false cur tgt).1 tgt < colorDist cur tgt := by
  obtain ⟨hch0, hch1, hcs0, hcs1, hcv0, hcv1⟩ := hc
  obtain ⟨hth0, hth1, hts0, hts1, htv0, htv1⟩ := ht
  have hh := hueStep_progress hch0 hch1 hth0 hth1
  have hs := axisStep_progress hcs0 hcs1 hts0 hts1
  have hv := axisStep_progress hcv0 hcv1 htv0 htv1
  have hcases : cur.hue ≠ tgt.hue ∨ cur.sat ≠ tgt.sat ∨ cur.val ≠ tgt.val := by
    by_contra hall
    push_neg at hall
    exact absurd ((hsvEq_iff cur tgt).2 ⟨hall.1, hall.2.1, hall.2.2⟩)
      (by simp [hne])
  rw [dimmerTick_fst]
  refine ⟨⟨hh.1, hh.2.1, hs.1, hs.2.1, hv.1, hv.2.1⟩,
    dimmerTick_snd_of_not_sdp cur tgt, ?_⟩
  unfold colorDist
  dsimp only
  rcases hcases with h | h | h
  · have := hh.2.2.2 h
    omega
  · have := hs.2.2.2 h
    omega
  · have := hv.2.2.2 h
    omega

/-- Zero total distance between in-range colors means `hsvEq`. -/
lemma hsvEq_of_colorDist_eq_zero {cur tgt : ColorHSV}
    (hc : InRange cur) (ht : InRange tgt) (h : colorDist cur tgt = 0) :
    hsvEq cur tgt = true := by
  obtain ⟨hch0, hch1, hcs0, hcs1, hcv0, hcv1⟩ := hc
  obtain ⟨hth0, hth1, hts0, hts1, htv0, htv1⟩ := ht
  have hnn := circDist_nonneg hch0 hch1 hth0 hth1
  unfold colorDist at h
  refine (hsvEq_iff cur tgt).2 ⟨?_, ?_, ?_⟩
  · exact circDist_eq_zero hch0 hch1 hth0 hth1 (by omega)
  · unfold iabs at h
    split_ifs at h <;> omega
  · unfold iabs at h
    split_ifs at h <;> omega

/-- An uncancelled zero-start-delay stepping loop with fuel at least the
total remaining distance terminates, with the final live color equal (as
HSV) to the target. -/
lemma smoothDimmerLoop_reaches (tgt : ColorHSV) (ht : InRange tgt) :
    ∀ (fuel i : Nat) (cur : ColorHSV), InRange cur →
      colorDist cur tgt ≤ fuel →
      ∃ r, smoothDimmerLoop (fun _ => false) false fuel i cur tgt = some r ∧
        hsvEq r.1 tgt = true := by
  intro fuel
  induction fuel with
  | zero =>
    intro i cur hc hd
    have he : hsvEq cur tgt = true :=
      hsvEq_of_colorDist_eq_zero hc ht (by omega)
    exact ⟨(cur, []), by simp [smoothDimmerLoop, he], he⟩
  | succ n ih =>
    intro i cur hc hd
    by_cases he : hsvEq cur tgt = true
    · exact ⟨(cur, []), by simp [smoothDimmerLoop, he], he⟩
    · have hp := dimmerTick_progress hc ht (by simpa using he)
      obtain ⟨r, hr, hrt⟩ :=
        ih (i + 1) (dimmerTick false cur tgt).1 hp.1 (by omega)
      refine ⟨(r.1, (dimmerTick false cur tgt).1 :: r.2), ?_, hrt⟩
      have hr' : smoothDimmerLoop (fun _ => false) false n (i + 1)
          (dimmerTick false cur tgt).1 (dimmerTick false cur tgt).2 = some r := by
        rw [hp.2.1]
        exact hr
      simp [smoothDimmerLoop, he, hr']

/-! ## C2 -/

/-- C2: when the configured smooth-change step interval is zero,
`apply_value_change` invokes the hardware-apply callback exactly once,
synchronously, changing no engine state; when it is non-zero, it raises
the cancellation flag, marks the smooth change in progress, makes no
synchronous hardware call and records a background activity with zero
start delay stepping toward the target; running that activity uncancelled
(with fuel covering the remaining distance) terminates with the live
color equal to the target, one hardware-apply call per step. -/
theorem apply_value_change_correct (st : EngineState) (v : ColorHSV)
    (hc : InRange st.current) (hv : InRange v) :
    (st.smooth_interval = 0 →
      apply_value_change st v = (st, [Effect.setPwm v])) ∧
    (st.smooth_interval ≠ 0 →
      apply_value_change st v
        = (start_thread
            { st with stop_thread := true, smooth_in_progress := true }
            0 st.smooth_interval v, []) ∧
      (apply_value_change st v).1.thread = some ⟨0, st.smooth_interval, v⟩ ∧
      (apply_value_change st v).1.smooth_in_progress = true ∧
      (apply_value_change st v).2 = [] ∧
      ∃ r, runActivity ⟨0, st.smooth_interval, v⟩ (fun _ => false)
          (colorDist st.current v) st.current = some r ∧
        hsvEq r.1 v = true) := by
  constructor
  · intro h
    simp [apply_value_change, h]
  · intro h
    have he : apply_value_change st v
        = (start_thread
            { st with stop_thread := true, smooth_in_progress := true }
            0 st.smooth_interval v, []) := by
      simp [apply_value_change, h]
    refine ⟨he, by rw [he]; rfl, by rw [he]; rfl, by rw [he], ?_⟩
    have hrun : runActivity ⟨0, st.smooth_interval, v⟩ (fun _ => false)
        (colorDist st.current v) st.current
        = smoothDimmerLoop (fun _ => false) false
            (colorDist st.current v) 0 st.current v := by
      simp [runActivity]
    rw [hrun]
    exact smoothDimmerLoop_reaches v hv (colorDist st.current v) 0
      st.current hc le_rfl

/-- Witness for C2 on `c7engine` (interval 0.05 s) toward `(0,0,100)`. -/
theorem apply_value_change_correct_witness :
    (apply_value_change c7engine c7target).1.thread
        = some ⟨0, c7engine.smooth_interval, c7target⟩ ∧
      (apply_value_change c7engine c7target).2 = [] := by
  have h := (apply_value_change_correct c7engine c7target
    (by decide) (by decide)).2 (by norm_num [c7engine])
  exact ⟨h.2.1, h.2.2.2.1⟩

/-! ## C9 -/

set_option maxHeartbeats 4000000 in
/-- C9: whenever the candidate color computed by `on_message` is
structurally equal to the live current color, the command is dropped: the
handler returns with the actuator state completely unchanged and emits
only the "ignoring command" log line — no hardware-apply call, no started
transition, no publish. -/
theorem on_message_idempotence_guard (is_toggle : String → Bool)
    (within_debounce thread_finished : Bool) (st : ActuatorState)
    (msg : String) (c : ColorHSV)
    (hcand : on_message_candidate is_toggle within_debounce st msg = some c)
    (heq : hsvEq st.engine.current c = true) :
    on_message is_toggle within_debounce thread_finished st msg
      = some (st, [Effect.logIgnored]) := by
  unfold on_message_candidate at hcand
  unfold on_message
  dsimp only at hcand ⊢
  split_ifs at hcand ⊢ <;>
    first
      | exact Option.noConfusion hcand
      | (rw [hcand]; simp [handle_new_color, heq])
      | (injection hcand with hc
         subst hc
         rw [hsvEq_iff] at heq
         exfalso
         simp at heq
         omega)
      | (injection hcand with hc; subst hc; simp [handle_new_color, heq])

/-- An actuator state whose live color already has brightness 100. -/
def c9state : ActuatorState :=
  { engine := { sampleEngine with current := ⟨120, 50, 100, false⟩ },
    last := sampleOn }

/-- Witness for C9: the command `"ON"` recomputes the already-lit color,
so the handler drops it and changes nothing. -/
theorem on_message_idempotence_guard_witness :
    on_message (fun _ => false) false true c9state "ON"
      = some (c9state, [Effect.logIgnored]) :=
  on_message_idempotence_guard (fun _ => false) false true c9state "ON"
    ⟨120, 50, 100, false⟩ (by decide) (by decide)

/-! ## C10 -/

/-- The brightness dynamics of a manual-dim activity in isolation: the
loop on the value component with the bidirectional flip, mirroring
`smoothDimmerLoop` when hue and saturation already match the target. -/
def valLoop : Nat → Int → Int → Option Int
  | 0, cv, tv => if cv = tv then some cv else none
  | fuel + 1, cv, tv =>
    if cv = tv then some cv
    else
      let cv' := axisStep cv tv
      let tv' := if cv' = 0 ∧ tv = 0 then (100 : Int) else tv
      valLoop fuel cv' tv'

/-- The manual-dim target agrees with the current color on hue and
saturation. -/
lemma dim_target_hue_sat (c : ColorHSV) :
    (dim_target c).hue = c.hue ∧ (dim_target c).sat = c.sat ∧
      (dim_target c).val = (if c.val ≠ 0 then (0 : Int) else 100) := by
  unfold dim_target
  split_ifs <;> simp_all

/-- The target after a tick, in terms of the updated live value: flipped
to brightness 100 exactly when the start delay was non-zero and both the
updated live brightness and the target brightness are 0. -/
lemma dimmerTick_snd (sdp : Bool) (cur tgt : ColorHSV) :
    (dimmerTick sdp cur tgt).2
      = if sdp ∧ (dimmerTick sdp cur tgt).1.val = 0 ∧ tgt.val = 0
          then { tgt with val := 100 } else tgt := rfl

/-- When hue and saturation already match the target, a manual-dim tick
reduces to the brightness dynamics: the live color only changes its value
component and the target only flips per the bidirectional rule. -/
lemma dimmerTick_val_sim {cur tgt : ColorHSV}
    (hh : cur.hue = tgt.hue) (hs : cur.sat = tgt.sat) :
    dimmerTick true cur tgt
      = ({ cur with val := axisStep cur.val tgt.val },
         if axisStep cur.val tgt.val = 0 ∧ tgt.val = 0
           then { tgt with val := 100 } else tgt) := by
  have h1 : (dimmerTick true cur tgt).1
      = { cur with val := axisStep cur.val tgt.val } := by
    rw [dimmerTick_fst]
    have hsnap : take_radial_step cur.hue tgt.hue 5 = cur.hue := by
      rw [hh, take_radial_step_snap (by rw [circDist_self]; omega)]
    have hsat : axisStep cur.sat tgt.sat = cur.sat := by
      unfold axisStep iabs
      split_ifs <;> omega
    rw [hsnap, hsat]
  have hval : (dimmerTick true cur tgt).1.val = axisStep cur.val tgt.val := by
    rw [h1]
  have h2 : (dimmerTick true cur tgt).2
      = if axisStep cur.val tgt.val = 0 ∧ tgt.val = 0
          then { tgt with val := 100 } else tgt := by
    rw [dimmerTick_snd, hval]
    simp only [true_and]
  calc dimmerTick true cur tgt = ((dimmerTick true cur tgt).1, (dimmerTick true cur tgt).2) := rfl
    _ = _ := by rw [h1, h2]

/-- Simulation: on colors agreeing with the target in hue and saturation,
a manual-dim run of `smoothDimmerLoop` computes exactly the brightness
dynamics `valLoop`, tick for tick. -/
lemma smoothDimmerLoop_val_sim :
    ∀ (fuel i : Nat) (cur tgt : ColorHSV), cur.hue = tgt.hue →
      cur.sat = tgt.sat →
      (smoothDimmerLoop (fun _ => false) true fuel i cur tgt).map
          (fun r => r.1.val)
        = valLoop fuel cur.val tgt.val := by
  intro fuel
  induction fuel with
  | zero =>
    intro i cur tgt hh hs
    have hcond : hsvEq cur tgt = decide (cur.val = tgt.val) := by
      by_cases hv : cur.val = tgt.val <;> simp [hsvEq, hh, hs, hv]
    simp only [smoothDimmerLoop, valLoop, hcond, Bool.or_false]
    by_cases hv : cur.val = tgt.val <;> simp [hv]
  | succ n ih =>
    intro i cur tgt hh hs
    have hcond : hsvEq cur tgt = decide (cur.val = tgt.val) := by
      by_cases hv : cur.val = tgt.val <;> simp [hsvEq, hh, hs, hv]
    simp only [smoothDimmerLoop, valLoop, hcond, Bool.or_false]
    by_cases hv : cur.val = tgt.val
    · simp [hv]
    · simp only [hv, decide_False, Bool.false_eq_true, if_false]
      rw [dimmerTick_val_sim hh hs]
      dsimp only
      rw [Option.map_map]
      have hrec := ih (i + 1) { cur with val := axisStep cur.val tgt.val }
        (if axisStep cur.val tgt.val = 0 ∧ tgt.val = 0
          then { tgt with val := 100 } else tgt)
        (by split_ifs <;> simp [hh]) (by split_ifs <;> simp [hs])
      have htv : (if axisStep cur.val tgt.val = 0 ∧ tgt.val = 0
          then { tgt with val := 100 } else tgt).val
          = (if axisStep cur.val tgt.val = 0 ∧ tgt.val = 0
              then (100 : Int) else tgt.val) := by
        split_ifs <;> rfl
      rw [← htv]
      rw [← hrec]
      rfl

/-- Exhaustive check of the brightness dynamics: from any starting
brightness in `[0,100]`, the manual-dim loop toward the `start_dimming`
target (0 when lit, else 100) terminates within 40 ticks at exactly 100. -/
lemma valLoop_dim : ∀ n : Nat, n ≤ 100 →
    valLoop 40 (n : Int) (if (n : Int) ≠ 0 then 0 else 100) = some 100 := by
  decide

/-- C10: a manual-dim background activity (started by `start_dimming`
from an idle engine with a non-zero configured start delay) that is never
cancelled terminates within 40 ticks, and the live color's brightness at
termination is exactly 100 — in particular it never self-terminates with
brightness 0, regardless of the starting brightness. -/
theorem manual_dim_terminates (st : EngineState)
    (hip : st.smooth_in_progress = false) (hd : st.dim_delay ≠ 0)
    (h0 : 0 ≤ st.current.val) (h1 : st.current.val ≤ 100) :
    ∀ a, (start_dimming st).thread = some a →
      ∃ r, runActivity a (fun _ => false) 40 st.current = some r ∧
        r.1.val = 100 := by
  intro a ha
  have ha' : a = ⟨st.dim_delay, st.dim_interval, dim_target st.current⟩ := by
    simp [start_dimming, start_thread, hip] at ha
    exact ha.symm
  subst ha'
  unfold runActivity
  have hsdp : decide (st.dim_delay ≠ 0) = true := by simp [hd]
  dsimp only
  rw [hsdp]
  obtain ⟨hh, hs, hv⟩ := dim_target_hue_sat st.current
  have hsim := smoothDimmerLoop_val_sim 40 0 st.current
    (dim_target st.current) hh.symm hs.symm
  have hvl : valLoop 40 st.current.val (dim_target st.current).val
      = some 100 := by
    have hdim := valLoop_dim st.current.val.toNat (by omega)
    have hcast : ((st.current.val.toNat : Nat) : Int) = st.current.val := by
      omega
    rw [hcast] at hdim
    rw [hv]
    exact hdim
  rw [hvl] at hsim
  obtain ⟨r, hr, hr100⟩ := Option.map_eq_some'.1 hsim
  exact ⟨r, hr, hr100⟩

/-- Witness for C10: dimming `sampleEngine` (idle, delay 0.5 s, live
brightness 0) runs the fade-in and terminates at brightness 100. -/
theorem manual_dim_terminates_witness :
    ∃ r, runActivity
        ⟨sampleEngine.dim_delay, sampleEngine.dim_interval,
          dim_target sampleEngine.current⟩
        (fun _ => false) 40 sampleEngine.current = some r ∧
      r.1.val = 100 :=
  manual_dim_terminates sampleEngine rfl (by norm_num [sampleEngine])
    (by decide) (by decide)
    ⟨sampleEngine.dim_delay, sampleEngine.dim_interval,
      dim_target sampleEngine.current⟩ rfl

end PwmSpec
